import Mathlib

/-!
Verification of the StudyApp C++ core (frequency-vector transform, identity
encoder, vector store ingestion, query matcher) against its specification.

Frequency maps (`std::map<std::string,int>`) are embedded as association
lists `List (String × ℤ)` ordered as the map iterates; theorems that need
key uniqueness take a `Nodup` hypothesis on the key list.  `double` is
idealised as `ℝ`.
-/

noncomputable section

namespace ENV_HPP

/-- env.hpp: `const int max_length = 14`. -/
def max_length : ℤ := 14

/-- env.hpp: `const int min_value = 3`. -/
def min_value : ℤ := 3

end ENV_HPP

namespace TRANSFORMER

/-- transform.hpp `token_filter`'s per-character test `c >= 'a' && c <= 'z'`. -/
def isLowerAlpha (c : Char) : Bool :=
  decide ('a' ≤ c) && decide (c ≤ 'z')

/-- transform.hpp `token_filter`: `std::all_of(token.first.begin(), token.first.end(), ...)`. -/
def containsOnlyLetters (s : String) : Bool :=
  s.data.all isLowerAlpha

/-- transform.hpp `compute_sum_token_json`: sum of all frequencies. -/
def compute_sum_token_json (tokens : List (String × ℤ)) : ℤ :=
  (tokens.map Prod.snd).sum

/-- transform.hpp `count_unique_tokens`: `tokens.size()`. -/
def count_unique_tokens (tokens : List (String × ℤ)) : ℕ :=
  tokens.length

/-- transform.hpp `Pythagoras`: `sqrt` of the sum of `value * value` over the map. -/
def Pythagoras (tokens : List (String × ℤ)) : ℝ :=
  Real.sqrt ((tokens.map (fun p => (p.2 : ℝ) * (p.2 : ℝ))).sum)

/-- transform.hpp `token_filter`: skip tokens with a non-lowercase character
(`continue`), keep those with `length() <= max_length && second >= min_value`,
emitting `(token, frequency, frequency / relational_distance)`. -/
def token_filter : List (String × ℤ) → ℤ → ℤ → ℝ → List (String × ℤ × ℝ)
  | [], _, _, _ => []
  | (t, f) :: rest, max_length, min_value, relational_distance =>
    if containsOnlyLetters t then
      if (t.length : ℤ) ≤ max_length ∧ min_value ≤ f then
        (t, f, (f : ℝ) / relational_distance) :: token_filter rest max_length min_value relational_distance
      else token_filter rest max_length min_value relational_distance
    else token_filter rest max_length min_value relational_distance

/-- The Boolean retention test of `token_filter`, as one predicate. -/
def keepToken (max_length min_value : ℤ) (p : String × ℤ) : Bool :=
  containsOnlyLetters p.1 && decide ((p.1.length : ℤ) ≤ max_length) && decide (min_value ≤ p.2)

end TRANSFORMER

namespace UPDATE_INFO

/-- updateDB.hpp `create_unique_id`: the loop `encoded_file_name += static_cast<uint8_t>(c)`
over the bytes of `path.generic_string()` (paths in this program are ASCII, so one
character is one byte). -/
def byteSum (path : String) : ℕ :=
  (path.data.map (fun c => c.toNat % 256)).sum

/-- Lowercase hexadecimal rendering of a number, as `std::hex` prints an unsigned
integer (`"0"` for zero, no leading zeros otherwise). -/
def toHex (n : ℕ) : String :=
  ⟨Nat.toDigits 16 n⟩

/-- The effect of `std::setw(8) << std::setfill('0')` on an at-most-8-digit
hexadecimal rendering: left-pad with `'0'` to 8 characters. -/
def pad8 (s : String) : String :=
  ⟨List.replicate (8 - s.length) '0'⟩ ++ s

/-- updateDB.hpp `create_unique_id`, mirrored statement by statement.  The C++
`int` inputs are non-negative throughout the program (an epoch time, a row
count and a minimum id, each at least 0), so they are embedded as `ℕ`; the
`uint64_t`/`uint32_t` wraparound is the explicit `% 2 ^ 64` / `% 2 ^ 32`. -/
def create_unique_id (path : String) (epoch_time chunk_count starting_id : ℕ) : String :=
  let e1 : ℕ := byteSum path % 2 ^ 64
  let e2 : ℕ := e1 * max 1 chunk_count % 2 ^ 64
  let encoded_file_name : ℕ := e2 * epoch_time % 2 ^ 64
  let mod_starting_id : ℕ := if starting_id = 0 then epoch_time % 3600 else starting_id
  let encoded_starting_id : ℕ := mod_starting_id * ((chunk_count + 1) * 2) % 2 ^ 32
  let redundancy : ℕ := (encoded_file_name ^^^ encoded_starting_id) % 2 ^ 32
  toHex encoded_file_name ++ pad8 (toHex encoded_starting_id) ++ pad8 (toHex redundancy)

end UPDATE_INFO


/-- utilities.hpp `DataEntry` (the csv-dump fields aside, the struct as filled by
`computeRelationalDistance`). -/
structure DataEntry where
  path : String
  sum : ℤ
  num_unique_tokens : ℕ
  relational_distance : ℝ
  filtered_tokens : List (String × ℤ × ℝ)

namespace FEATURE

/-- feature.hpp `computeRelationalDistance`, erase loop over `json_map`: an entry
is kept unless `value < min_value || key.length() > max_length || !all_of(lowercase)`. -/
def ingestKeep (p : String × ℤ) : Bool :=
  !(decide (p.2 < ENV_HPP.min_value) || decide ((p.1.length : ℤ) > ENV_HPP.max_length) ||
    !TRANSFORMER.containsOnlyLetters p.1)

/-- The state of `json_map` after the erase loop of `computeRelationalDistance`. -/
def ingestFilter (m : List (String × ℤ)) : List (String × ℤ) :=
  m.filter ingestKeep

/-- feature.hpp `computeRelationalDistance`, per-file body: the `DataEntry row`
built from the erased map (`path` is `file.stem().generic_string()`), with
`relational_distance = Pythagoras(json_map)` computed after the erase loop and
`filtered_tokens = token_filter(json_map, max_length, min_value, relational_distance)`. -/
def processFile (stem : String) (json_map : List (String × ℤ)) : DataEntry :=
  let erased := ingestFilter json_map
  { path := stem
    sum := TRANSFORMER.compute_sum_token_json erased
    num_unique_tokens := TRANSFORMER.count_unique_tokens erased
    relational_distance := TRANSFORMER.Pythagoras erased
    filtered_tokens :=
      TRANSFORMER.token_filter erased ENV_HPP.max_length ENV_HPP.min_value
        (TRANSFORMER.Pythagoras erased) }

/-- The rows `computeRelationalDistance` inserts into `relation_distance`:
`(row.path, token, frequency, weight)` for each filtered token.  The key is the
bare file stem; no prefix is applied on the ingestion path. -/
def relationRows (stem : String) (json_map : List (String × ℤ)) :
    List (String × String × ℤ × ℝ) :=
  (processFile stem json_map).filtered_tokens.map (fun tk => (stem, tk.1, tk.2.1, tk.2.2))

/-- The two vector tables owned by the store: `file_token` rows
`(file_name, total_tokens, unique_tokens, relational_distance)` and
`relation_distance` rows `(file_name, Token, frequency, relational_distance)`. -/
structure VectorStore where
  file_token : List (String × ℤ × ℕ × ℝ)
  relation_distance : List (String × String × ℤ × ℝ)

/-- `INSERT OR REPLACE` into `file_token` (primary key `file_name`). -/
def upsertFileToken (rows : List (String × ℤ × ℕ × ℝ)) (r : String × ℤ × ℕ × ℝ) :
    List (String × ℤ × ℕ × ℝ) :=
  rows.filter (fun x => !(x.1 == r.1)) ++ [r]

/-- `INSERT OR REPLACE` into `relation_distance` (primary key `(file_name, Token)`). -/
def upsertRelation (rows : List (String × String × ℤ × ℝ)) (r : String × String × ℤ × ℝ) :
    List (String × String × ℤ × ℝ) :=
  rows.filter (fun x => !(x.1 == r.1 && x.2.1 == r.2.1)) ++ [r]

/-- One iteration of `computeRelationalDistance`'s file loop against the store.
`rdFails` says which `relation_distance` insert statements fail their
`sqlite3_step`; the code never inspects that step's return value, so a failing
statement simply leaves its row out while the loop carries on.  (The
`file_token` step result is equally unchecked; it is modelled as succeeding.) -/
def insertEntryRows (rdFails : String × String → Bool) (st : VectorStore)
    (entry : DataEntry) : VectorStore :=
  let st1 : VectorStore :=
    { st with
      file_token :=
        upsertFileToken st.file_token
          (entry.path, entry.sum, entry.num_unique_tokens, entry.relational_distance) }
  entry.filtered_tokens.foldl
    (fun s tk =>
      if rdFails (entry.path, tk.1) then s
      else
        { s with
          relation_distance :=
            upsertRelation s.relation_distance (entry.path, tk.1, tk.2.1, tk.2.2) })
    st1

/-- feature.hpp `computeRelationalDistance`, the whole batch between
`BEGIN TRANSACTION` and `COMMIT TRANSACTION`: every per-row step outcome is
ignored, and the commit applies whatever subset of rows succeeded. -/
def computeRelationalDistanceBatch (rdFails : String × String → Bool)
    (files : List (String × List (String × ℤ))) (init : VectorStore) : VectorStore :=
  files.foldl (fun st file => insertEntryRows rdFails st (processFile file.1 file.2)) init

/-- feature.hpp `processPrompt`: `int distance = TRANSFORMER::Pythagoras(tokens)` —
the truncating `double`-to-`int` conversion; the norm is non-negative, so
truncation toward zero is the floor. -/
def promptDistance (tokens : List (String × ℤ)) : ℤ :=
  ⌊TRANSFORMER.Pythagoras tokens⌋

/-- feature.hpp `processPrompt`:
`token_filter(tokens, 16, 1, distance)`, with the `int` distance converted back
to `double` at the call. -/
def promptFilteredTokens (tokens : List (String × ℤ)) : List (String × ℤ × ℝ) :=
  TRANSFORMER.token_filter tokens 16 1 ((promptDistance tokens : ℤ) : ℝ)

/-- Lookup in the fetched `relation_distance_map`: the row for a given
`file_name` key and token, if any ( `(file_name, Token)` is the table's primary
key, so the nested `std::map` holds exactly the fetched rows). -/
def findRow (rows : List (String × String × ℝ)) (key t : String) :
    Option (String × String × ℝ) :=
  rows.find? (fun r => r.1 == key && r.2.1 == t)

/-- feature.hpp `processPrompt`, Step 2: `SELECT file_name, Token,
Relational_distance FROM relation_distance WHERE Token IN (...)` — the stored
rows restricted to the query's token set, projected to (file_name, Token, weight). -/
def fetchRows (stored : List (String × String × ℤ × ℝ)) (queryTokens : List String) :
    List (String × String × ℝ) :=
  (stored.filter (fun r => queryTokens.contains r.2.1)).map (fun r => (r.1, r.2.1, r.2.2.2))

/-- feature.hpp `processPrompt`, Step 3 inner loop: starting from
`total_distance = 0`, add `weight * relation_distance_map["title_" + id][token]`
whenever both nested lookups succeed. -/
def docScore (rows : List (String × String × ℝ)) (query : List (String × ℤ × ℝ))
    (id : String) : ℝ :=
  query.foldl
    (fun acc e =>
      match findRow rows ("title_" ++ id) e.1 with
      | some r => acc + e.2.2 * r.2.2
      | none => acc)
    0

/-- feature.hpp `processPrompt`, Step 3: one `(id, file_name, total_distance)`
entry pushed into `RESULT` per `file_info` row. -/
def promptResults (docs : List (String × String)) (rows : List (String × String × ℝ))
    (query : List (String × ℤ × ℝ)) : List (String × String × ℝ) :=
  docs.map (fun d => (d.1, d.2, docScore rows query d.1))

/-- The contract of `std::sort(RESULT.begin(), RESULT.end(), [](a, b){ return
a.score > b.score; })`: the output is some permutation of the input that is
non-increasing in the score component.  `std::sort` promises nothing further
about the relative order of tied elements. -/
def IsSortResult (input output : List (String × String × ℝ)) : Prop :=
  input.Perm output ∧ output.Pairwise (fun a b => b.2.2 ≤ a.2.2)

/-- feature.hpp `processPrompt`, print loop `for (i = 0; i < top_n && i <
RESULT.size(); i++)`: the first `min top_n (size)` entries of the sorted list. -/
def promptTopN (sorted : List (String × String × ℝ)) (top_n : ℕ) :
    List (String × String × ℝ) :=
  sorted.take top_n

end FEATURE

/-- Spec-side definition (§3/§8): a token "matches `[a-z]+`" — at least one
character, every character a lowercase ASCII letter.  Kept separate from the
code's `containsOnlyLetters` so the two can be compared. -/
def specLowerPlus (s : String) : Prop :=
  1 ≤ s.length ∧ ∀ c ∈ s.data, 'a' ≤ c ∧ c ≤ 'z'

/-- Spec-side definition (§4.5 step 4): `score = Σ over filteredQuery of
(queryToken.weight × storedWeight(doc, token))`, a missing `(doc, token)` pair
contributing 0. -/
def specScore (rows : List (String × String × ℝ)) (query : List (String × ℤ × ℝ))
    (id : String) : ℝ :=
  (query.map
    (fun e => e.2.2 * (((FEATURE.findRow rows ("title_" ++ id) e.1).map
      (fun r => r.2.2)).getD 0))).sum

/-- A step-failure oracle for the batch model: every `relation_distance` insert
statement of the document keyed `"b"` fails its `sqlite3_step` (say, disk
full), every other statement succeeds. -/
def failOnDocB : String × String → Bool :=
  fun p => p.1 == "b"

/-- A two-document ingestion batch: `a.json = {"cat": 3}` and `b.json = {"dog": 4}`. -/
def twoFileBatch : List (String × List (String × ℤ)) :=
  [("a", [("cat", 3)]), ("b", [("dog", 4)])]

/-- A store with both vector tables empty — the state before a batch begins. -/
def emptyStore : FEATURE.VectorStore :=
  ⟨[], []⟩

namespace TRANSFORMER

theorem token_filter_eq_filterMap (m : List (String × ℤ)) (a b : ℤ) (rd : ℝ) :
    token_filter m a b rd =
      (m.filter (keepToken a b)).map (fun p => (p.1, p.2, (p.2 : ℝ) / rd)) := by
  induction m with
  | nil => rfl
  | cons hd tl ih =>
    obtain ⟨t, f⟩ := hd
    by_cases hletters : containsOnlyLetters t
    · by_cases hrest : (t.length : ℤ) ≤ a ∧ b ≤ f
      · simp [token_filter, hletters, hrest, keepToken, hrest.1, hrest.2, ih]
      · rw [Decidable.not_and_iff_or_not] at hrest
        rcases hrest with h | h
        · simp [token_filter, hletters, h, keepToken, ih]
        · simp [token_filter, hletters, h, keepToken, ih]
    · simp [token_filter, hletters, keepToken, ih]

theorem mem_token_filter_iff (m : List (String × ℤ)) (a b : ℤ) (rd : ℝ)
    (t : String) (f : ℤ) (w : ℝ) :
    (t, f, w) ∈ token_filter m a b rd ↔
      ((t, f) ∈ m ∧ containsOnlyLetters t = true ∧ (t.length : ℤ) ≤ a ∧ b ≤ f ∧
        w = (f : ℝ) / rd) := by
  rw [token_filter_eq_filterMap]
  constructor
  · intro h
    rcases List.mem_map.1 h with ⟨p, hp, hpe⟩
    rcases List.mem_filter.1 hp with ⟨hpm, hpk⟩
    obtain ⟨pt, pf⟩ := p
    simp only [Prod.mk.injEq] at hpe
    obtain ⟨rfl, rfl, rfl⟩ := hpe
    simp only [keepToken, Bool.and_eq_true, decide_eq_true_eq] at hpk
    exact ⟨hpm, hpk.1.1, hpk.1.2, hpk.2, rfl⟩
  · rintro ⟨hm, hletters, hlen, hfreq, rfl⟩
    refine List.mem_map.2 ⟨(t, f), List.mem_filter.2 ⟨hm, ?_⟩, rfl⟩
    simp [keepToken, hletters, hlen, hfreq]

end TRANSFORMER

theorem docScore_foldl_acc (rows : List (String × String × ℝ)) (id : String) :
    ∀ (query : List (String × ℤ × ℝ)) (acc : ℝ),
      query.foldl
        (fun acc e =>
          match FEATURE.findRow rows ("title_" ++ id) e.1 with
          | some r => acc + e.2.2 * r.2.2
          | none => acc)
        acc = acc + specScore rows query id := by
  intro query
  induction query with
  | nil => intro acc; simp [specScore]
  | cons e tl ih =>
    intro acc
    cases hfind : FEATURE.findRow rows ("title_" ++ id) e.1 with
    | none => simp [specScore, hfind, ih, add_assoc]
    | some r => simp [specScore, hfind, ih, add_assoc]

/-- C4: the ranking score of every stored document is the sum, over the
filtered query tokens, of the query token's weight times the document's stored
weight for that token, a missing `(document, token)` pair contributing exactly
0 (`specScore` is that sum; `promptResults` is the scoring loop of
`processPrompt`). -/
theorem c4_score_is_weighted_overlap (docs : List (String × String))
    (rows : List (String × String × ℝ)) (query : List (String × ℤ × ℝ)) :
    FEATURE.promptResults docs rows query =
      docs.map (fun d => (d.1, d.2, specScore rows query d.1)) := by
  unfold FEATURE.promptResults FEATURE.docScore
  refine List.map_congr_left (fun d _ => ?_)
  rw [docScore_foldl_acc]
  simp

/-- C6: `create_unique_id` is a deterministic function of its four arguments,
and its result is the lowercase hex of the byte-sum of the path times
`max 1 chunkCount` times the epoch time wrapped to 64 bits, followed by the
8-zero-padded hex of `effectiveStartId * ((chunkCount + 1) <<< 1)` wrapped to
32 bits, followed by the 8-zero-padded hex of their XOR taken in 32 bits. -/
theorem c6_create_unique_id (path : String) (epoch_time chunk_count starting_id : ℕ) :
    UPDATE_INFO.create_unique_id path epoch_time chunk_count starting_id =
      UPDATE_INFO.create_unique_id path epoch_time chunk_count starting_id ∧
    UPDATE_INFO.create_unique_id path epoch_time chunk_count starting_id =
      (let encodedName :=
        UPDATE_INFO.byteSum path * max 1 chunk_count * epoch_time % 2 ^ 64
       let effectiveStartId :=
        if starting_id = 0 then epoch_time % 3600 else starting_id
       let encodedStart := effectiveStartId * ((chunk_count + 1) <<< 1) % 2 ^ 32
       UPDATE_INFO.toHex encodedName ++
         UPDATE_INFO.pad8 (UPDATE_INFO.toHex encodedStart) ++
         UPDATE_INFO.pad8 (UPDATE_INFO.toHex ((encodedName ^^^ encodedStart) % 2 ^ 32))) :=
  ⟨rfl, by simp [UPDATE_INFO.create_unique_id, Nat.mod_mul_mod, Nat.shiftLeft_eq, mul_assoc]⟩

/-- C7 (counterexample): the filter does not retain exactly the `[a-z]+`
tokens — the empty-string token (which does not match `[a-z]+`) is retained:
with max length 14, min frequency 3 and norm 1, the map `{"": 5}` yields the
emitted entry `("", 5, 5)`. -/
theorem c7_counterexample :
    ("", (5 : ℤ), (5 : ℝ)) ∈ TRANSFORMER.token_filter [("", 5)] 14 3 1 ∧
      ¬ specLowerPlus "" := by
  constructor
  · exact (TRANSFORMER.mem_token_filter_iff _ _ _ _ _ _ _).2
      ⟨by decide, by decide, by decide, by decide, by norm_num⟩
  · intro h
    exact absurd h.1 (by decide)

/-- C7 (amended): `token_filter` retains exactly the tokens all of whose
characters are lowercase ASCII letters (`[a-z]*`, the empty token included)
whose length is at most the configured maximum and whose frequency is at least
the configured minimum, emitting weight `frequency / norm`; in particular
`"Cat2"` is always excluded, a 15-character all-lowercase token is excluded at
max length 14, and a frequency-2 token is excluded at min frequency 3. -/
theorem c7_token_filter_characterisation (m : List (String × ℤ)) (a b : ℤ) (rd : ℝ)
    (t : String) (f : ℤ) (w : ℝ) :
    (t, f, w) ∈ TRANSFORMER.token_filter m a b rd ↔
      ((t, f) ∈ m ∧ (∀ c ∈ t.data, 'a' ≤ c ∧ c ≤ 'z') ∧ (t.length : ℤ) ≤ a ∧
        b ≤ f ∧ w = (f : ℝ) / rd) := by
  rw [TRANSFORMER.mem_token_filter_iff]
  have hletters : TRANSFORMER.containsOnlyLetters t = true ↔
      ∀ c ∈ t.data, 'a' ≤ c ∧ c ≤ 'z' := by
    simp [TRANSFORMER.containsOnlyLetters, TRANSFORMER.isLowerAlpha, List.all_eq_true]
  rw [hletters]

/-- C10: a map containing the empty-string token with frequency at least the
minimum has that entry retained by `token_filter` (the all-lowercase check is
vacuous and the length check `0 ≤ maxLen` passes), emitted with weight
`frequency / norm`. -/
theorem c10_empty_token_retained (m : List (String × ℤ)) (a b : ℤ) (rd : ℝ) (f : ℤ)
    (hmem : ("", f) ∈ m) (hfreq : b ≤ f) (hlen : 0 ≤ a) :
    ("", f, (f : ℝ) / rd) ∈ TRANSFORMER.token_filter m a b rd :=
  (TRANSFORMER.mem_token_filter_iff _ _ _ _ _ _ _).2
    ⟨hmem, by decide, by simpa using hlen, hfreq, rfl⟩

/-- C10 witness: the map `{"": 3}` at max length 14, min frequency 3, norm 1
yields the emitted empty-token entry. -/
theorem c10_witness :
    ("", (3 : ℤ), ((3 : ℝ) / 1)) ∈ TRANSFORMER.token_filter [("", 3)] 14 3 1 :=
  c10_empty_token_retained [("", 3)] 14 3 1 3 (by decide) (by decide) (by decide)

theorem ingestKeep_eq_keepToken :
    FEATURE.ingestKeep = TRANSFORMER.keepToken ENV_HPP.max_length ENV_HPP.min_value := by
  funext p
  rw [Bool.eq_iff_iff]
  simp only [FEATURE.ingestKeep, TRANSFORMER.keepToken, Bool.not_eq_true',
    Bool.or_eq_false_iff, decide_eq_false_iff_not, not_lt, Bool.not_eq_false,
    Bool.not_eq_false', Bool.and_eq_true, decide_eq_true_eq]
  tauto

/-- C1 (counterexample): for the ingested map `{"ab": 3, "cd2": 10}` with max
length 14 and min frequency 3, the stored weight of the surviving token `"ab"`
is `1` (= 3 divided by the norm of the already-erased map `{"ab": 3}`), which
is not `3 / norm({"ab": 3, "cd2": 10})` as the claim requires. -/
theorem c1_counterexample :
    ("ab", (3 : ℤ), (1 : ℝ)) ∈
        (FEATURE.processFile "doc" [("ab", 3), ("cd2", 10)]).filtered_tokens ∧
      (1 : ℝ) ≠ (3 : ℝ) / TRANSFORMER.Pythagoras [("ab", 3), ("cd2", 10)] := by
  have h1 : FEATURE.ingestFilter [("ab", 3), ("cd2", 10)] = [("ab", (3 : ℤ))] := by decide
  have h2 : TRANSFORMER.Pythagoras [("ab", (3 : ℤ))] = 3 := by
    unfold TRANSFORMER.Pythagoras
    simp only [List.map_cons, List.map_nil, List.sum_cons, List.sum_nil, add_zero]
    push_cast
    exact Real.sqrt_mul_self (by norm_num)
  constructor
  · show ("ab", (3 : ℤ), (1 : ℝ)) ∈
      TRANSFORMER.token_filter (FEATURE.ingestFilter [("ab", 3), ("cd2", 10)])
        ENV_HPP.max_length ENV_HPP.min_value
        (TRANSFORMER.Pythagoras (FEATURE.ingestFilter [("ab", 3), ("cd2", 10)]))
    rw [h1, h2]
    exact (TRANSFORMER.mem_token_filter_iff _ _ _ _ _ _ _).2
      ⟨by decide, by decide, by decide, by decide, by norm_num⟩
  · have hp : TRANSFORMER.Pythagoras [("ab", 3), ("cd2", 10)] = Real.sqrt 109 := by
      unfold TRANSFORMER.Pythagoras
      norm_num
    rw [hp]
    have hgt : (3 : ℝ) < Real.sqrt 109 := by
      rw [Real.lt_sqrt (by norm_num)]
      norm_num
    have hlt : (3 : ℝ) / Real.sqrt 109 < 1 :=
      (div_lt_one (lt_trans (by norm_num) hgt)).2 hgt
    exact (ne_of_lt hlt).symm

/-- C1 (amended): each surviving token of an ingested document map is stored
with weight `frequency / norm(filtered map)` — the erase pass removes the
non-qualifying tokens before `Pythagoras` runs, so the denominator is the norm
of the filtered subset, not of the original unfiltered map. -/
theorem c1_weight_uses_filtered_norm (stem : String) (m : List (String × ℤ)) :
    (FEATURE.processFile stem m).filtered_tokens =
      (FEATURE.ingestFilter m).map
        (fun p => (p.1, p.2, (p.2 : ℝ) / TRANSFORMER.Pythagoras (FEATURE.ingestFilter m))) := by
  show TRANSFORMER.token_filter (FEATURE.ingestFilter m) ENV_HPP.max_length ENV_HPP.min_value
      (TRANSFORMER.Pythagoras (FEATURE.ingestFilter m)) = _
  rw [TRANSFORMER.token_filter_eq_filterMap]
  congr 1
  rw [FEATURE.ingestFilter, ingestKeep_eq_keepToken, List.filter_filter]
  simp

/-- C5 (counterexample): for the query map `{"ab": 1, "cd": 1}` the norm is
`sqrt 2`, but `processPrompt` truncates it to the `int` 1 before weighting, so
the weight of `"ab"` is `1`, not `1 / sqrt 2` as the claim's exact-norm formula
requires. -/
theorem c5_counterexample :
    ("ab", (1 : ℤ), (1 : ℝ)) ∈ FEATURE.promptFilteredTokens [("ab", 1), ("cd", 1)] ∧
      (1 : ℝ) ≠ (1 : ℝ) / TRANSFORMER.Pythagoras [("ab", 1), ("cd", 1)] := by
  have hp : TRANSFORMER.Pythagoras [("ab", 1), ("cd", 1)] = Real.sqrt 2 := by
    unfold TRANSFORMER.Pythagoras
    norm_num
  have hd : FEATURE.promptDistance [("ab", 1), ("cd", 1)] = 1 := by
    rw [FEATURE.promptDistance, hp, show (2 : ℝ) = ((2 : ℕ) : ℝ) by norm_num,
      Real.floor_real_sqrt_eq_nat_sqrt]
    norm_num
  constructor
  · show ("ab", (1 : ℤ), (1 : ℝ)) ∈
      TRANSFORMER.token_filter [("ab", 1), ("cd", 1)] 16 1
        ((FEATURE.promptDistance [("ab", 1), ("cd", 1)] : ℤ) : ℝ)
    rw [hd]
    exact (TRANSFORMER.mem_token_filter_iff _ _ _ _ _ _ _).2
      ⟨by decide, by decide, by decide, by decide, by norm_num⟩
  · rw [hp]
    have hgt : (1 : ℝ) < Real.sqrt 2 := by
      rw [show (1 : ℝ) = Real.sqrt 1 by simp]
      exact Real.sqrt_lt_sqrt (by norm_num) (by norm_num)
    have hlt : (1 : ℝ) / Real.sqrt 2 < 1 :=
      (div_lt_one (lt_trans (by norm_num) hgt)).2 hgt
    exact (ne_of_lt hlt).symm

/-- C5 (amended): the query path weights the filtered query tokens against the
query norm truncated to an integer: `distance = ⌊norm(queryMap)⌋` (the
`double`-to-`int` conversion), `filteredQuery = filter(queryMap, 16, 1,
(double)distance)`, and each filtered token's weight is its frequency divided
by that truncated norm. -/
theorem c5_query_weights_truncated_norm (m : List (String × ℤ)) :
    FEATURE.promptDistance m = ⌊TRANSFORMER.Pythagoras m⌋ ∧
      FEATURE.promptFilteredTokens m =
        (m.filter (TRANSFORMER.keepToken 16 1)).map
          (fun p => (p.1, p.2, (p.2 : ℝ) / ((FEATURE.promptDistance m : ℤ) : ℝ))) :=
  ⟨rfl, TRANSFORMER.token_filter_eq_filterMap m 16 1 _⟩

theorem sum_sq_eq_zero_forall (l : List (String × ℤ))
    (h : ((l.map fun p => (p.2 : ℝ) * (p.2 : ℝ)).sum = 0)) : ∀ p ∈ l, p.2 = 0 := by
  induction l with
  | nil => simp
  | cons hd tl ih =>
    intro p hp
    simp only [List.map_cons, List.sum_cons] at h
    have h1 : (0 : ℝ) ≤ (hd.2 : ℝ) * hd.2 := mul_self_nonneg _
    have h2 : (0 : ℝ) ≤ (tl.map fun p => (p.2 : ℝ) * (p.2 : ℝ)).sum := by
      refine List.sum_nonneg ?_
      intro x hx
      rcases List.mem_map.1 hx with ⟨q, _, rfl⟩
      exact mul_self_nonneg _
    have hhd : (hd.2 : ℝ) * hd.2 = 0 := by linarith
    have htl : (tl.map fun p => (p.2 : ℝ) * (p.2 : ℝ)).sum = 0 := by linarith
    rcases List.mem_cons.1 hp with rfl | hmem
    · exact_mod_cast mul_self_eq_zero.1 hhd
    · exact ih htl p hmem

theorem pythagoras_eq_zero_forall (l : List (String × ℤ))
    (h : TRANSFORMER.Pythagoras l = 0) : ∀ p ∈ l, p.2 = 0 := by
  unfold TRANSFORMER.Pythagoras at h
  have hle := Real.sqrt_eq_zero'.1 h
  have hge : (0 : ℝ) ≤ (l.map fun p => (p.2 : ℝ) * (p.2 : ℝ)).sum := by
    refine List.sum_nonneg ?_
    intro x hx
    rcases List.mem_map.1 hx with ⟨q, _, rfl⟩
    exact mul_self_nonneg _
  exact sum_sq_eq_zero_forall l (le_antisymm hle hge)

/-- C8: when a map's norm is 0 the program skips emission — on the ingestion
path a zero norm of the erased map forces the erased map (whose frequencies are
all at least 3) to be empty, so no token row is emitted, and on the query path
a zero norm forces every frequency to 0, so the min-frequency-1 filter emits
nothing; in neither case is any weight (hence any NaN/Infinity) produced. -/
theorem c8_zero_norm_emits_nothing (stem : String) (m : List (String × ℤ)) :
    (TRANSFORMER.Pythagoras (FEATURE.ingestFilter m) = 0 →
      (FEATURE.processFile stem m).filtered_tokens = []) ∧
    (TRANSFORMER.Pythagoras m = 0 → FEATURE.promptFilteredTokens m = []) := by
  constructor
  · intro h
    have hz := pythagoras_eq_zero_forall _ h
    have hnil : FEATURE.ingestFilter m = [] := by
      rw [List.eq_nil_iff_forall_not_mem]
      intro p hp
      have hkeep := List.of_mem_filter hp
      simp only [FEATURE.ingestKeep, Bool.not_eq_true', Bool.or_eq_false_iff,
        decide_eq_false_iff_not, not_lt, Bool.not_eq_false] at hkeep
      have := hz p hp
      have h3 : ENV_HPP.min_value ≤ p.2 := hkeep.1.1
      rw [this] at h3
      exact absurd h3 (by norm_num [ENV_HPP.min_value])
    show TRANSFORMER.token_filter (FEATURE.ingestFilter m) _ _ _ = []
    rw [hnil]
    rfl
  · intro h
    have hz := pythagoras_eq_zero_forall _ h
    show TRANSFORMER.token_filter m 16 1 _ = []
    rw [TRANSFORMER.token_filter_eq_filterMap]
    have : m.filter (TRANSFORMER.keepToken 16 1) = [] := by
      rw [List.filter_eq_nil_iff]
      intro p hp
      simp only [TRANSFORMER.keepToken, Bool.and_eq_true, decide_eq_true_eq, not_and]
      intro _ hf
      rw [hz p hp] at hf
      exact absurd hf (by norm_num)
    rw [this]
    rfl

/-- C8 witness: the empty map has norm 0 on both paths and emits nothing. -/
theorem c8_witness :
    (FEATURE.processFile "doc" ([] : List (String × ℤ))).filtered_tokens = [] ∧
      FEATURE.promptFilteredTokens ([] : List (String × ℤ)) = [] := by
  have hz : TRANSFORMER.Pythagoras ([] : List (String × ℤ)) = 0 := by
    unfold TRANSFORMER.Pythagoras
    simp
  exact ⟨(c8_zero_norm_emits_nothing "doc" []).1 hz,
    (c8_zero_norm_emits_nothing "doc" []).2 hz⟩

theorem Pythagoras_single (t : String) (v : ℤ) (hv : 0 ≤ v) :
    TRANSFORMER.Pythagoras [(t, v)] = (v : ℝ) := by
  unfold TRANSFORMER.Pythagoras
  simp only [List.map_cons, List.map_nil, List.sum_cons, List.sum_nil, add_zero]
  exact Real.sqrt_mul_self (by exact_mod_cast hv)

theorem processFile_path (stem : String) (m : List (String × ℤ)) :
    (FEATURE.processFile stem m).path = stem :=
  rfl

theorem processFile_single_token (stem t : String) (v : ℤ)
    (hkeep : FEATURE.ingestKeep (t, v) = true) (hv : 0 < v) :
    (FEATURE.processFile stem [(t, v)]).filtered_tokens = [(t, v, (1 : ℝ))] := by
  have hf : FEATURE.ingestFilter [(t, v)] = [(t, v)] := by
    simp [FEATURE.ingestFilter, List.filter_cons, hkeep]
  show TRANSFORMER.token_filter (FEATURE.ingestFilter [(t, v)]) ENV_HPP.max_length
      ENV_HPP.min_value (TRANSFORMER.Pythagoras (FEATURE.ingestFilter [(t, v)])) = _
  rw [hf, Pythagoras_single t v (le_of_lt hv), TRANSFORMER.token_filter_eq_filterMap]
  have hk : TRANSFORMER.keepToken ENV_HPP.max_length ENV_HPP.min_value (t, v) = true := by
    rw [← ingestKeep_eq_keepToken]
    exact hkeep
  simp only [List.filter_cons, hk, if_true, List.filter_nil, List.map_cons, List.map_nil]
  have hvne : (v : ℝ) ≠ 0 := Int.cast_ne_zero.2 hv.ne'
  rw [div_self hvne]

theorem filtered_tokens_keys_nodup (stem : String) (m : List (String × ℤ))
    (hnd : (m.map (fun p => p.1)).Nodup) :
    ((FEATURE.processFile stem m).filtered_tokens.map (fun p => p.1)).Nodup := by
  have heq : (FEATURE.processFile stem m).filtered_tokens.map (fun p => p.1) =
      ((FEATURE.ingestFilter m).filter
        (TRANSFORMER.keepToken ENV_HPP.max_length ENV_HPP.min_value)).map (fun p => p.1) := by
    show (TRANSFORMER.token_filter (FEATURE.ingestFilter m) _ _ _).map _ = _
    rw [TRANSFORMER.token_filter_eq_filterMap, List.map_map]
    rfl
  rw [heq]
  refine List.Nodup.sublist (List.Sublist.map _ ?_) hnd
  have h1 : ((FEATURE.ingestFilter m).filter
      (TRANSFORMER.keepToken ENV_HPP.max_length ENV_HPP.min_value)).Sublist
      (FEATURE.ingestFilter m) := List.filter_sublist _
  have h2 : (FEATURE.ingestFilter m).Sublist m := List.filter_sublist _
  exact h1.trans h2

theorem fetchRows_cons (a b : String) (c : ℤ) (d : ℝ)
    (rs : List (String × String × ℤ × ℝ)) (qts : List String) :
    FEATURE.fetchRows ((a, b, c, d) :: rs) qts =
      if qts.contains b then (a, b, d) :: FEATURE.fetchRows rs qts
      else FEATURE.fetchRows rs qts := by
  by_cases h : b ∈ qts <;> simp [FEATURE.fetchRows, List.filter_cons, h]

theorem findRow_fetch (stem : String) (qts : List String) :
    ∀ (L : List (String × ℤ × ℝ)), ((L.map (fun p => p.1)).Nodup) →
      ∀ (t : String) (f : ℤ) (w : ℝ), (t, f, w) ∈ L → t ∈ qts →
        FEATURE.findRow
          (FEATURE.fetchRows (L.map (fun tk => (stem, tk.1, tk.2.1, tk.2.2))) qts) stem t =
          some (stem, t, w) := by
  intro L
  induction L with
  | nil =>
    intro _ t f w hmem _
    exact absurd hmem (List.not_mem_nil _)
  | cons hd tl ih =>
    intro hnd t f w hmem hq
    obtain ⟨t0, f0, w0⟩ := hd
    simp only [List.map_cons, List.nodup_cons] at hnd
    obtain ⟨hnotin, hndtl⟩ := hnd
    rcases List.mem_cons.1 hmem with heq | hmemtl
    · simp only [Prod.mk.injEq] at heq
      obtain ⟨rfl, rfl, rfl⟩ := heq
      have hc : qts.contains t = true := List.elem_eq_true_of_mem hq
      simp only [List.map_cons]
      rw [fetchRows_cons, if_pos hc, FEATURE.findRow, List.find?_cons_of_pos _ (by simp)]
    · have hne : t ≠ t0 := by
        intro hcontra
        exact hnotin (hcontra ▸ List.mem_map.2 ⟨(t, f, w), hmemtl, rfl⟩)
      simp only [List.map_cons]
      rw [fetchRows_cons]
      by_cases hc0 : qts.contains t0
      · rw [if_pos hc0, FEATURE.findRow, List.find?_cons_of_neg]
        · exact ih hndtl t f w hmemtl hq
        · simp only [beq_self_eq_true, Bool.true_and, beq_iff_eq]
          exact Ne.symm hne
      · rw [if_neg hc0]
        exact ih hndtl t f w hmemtl hq

/-- C2 (counterexample): ingest the map `{"cat": 3}` from the token file
`doc.json` — a row keyed by the bare stem `"doc"` is stored — and let the
document's `file_info` id be `"x"`; the query engine's lookup under
`"title_" + id` finds nothing, so the round trip of the claim fails. -/
theorem c2_counterexample :
    ("cat", (3 : ℤ), (1 : ℝ)) ∈ (FEATURE.processFile "doc" [("cat", 3)]).filtered_tokens ∧
      FEATURE.findRow (FEATURE.fetchRows (FEATURE.relationRows "doc" [("cat", 3)]) ["cat"])
        ("title_" ++ "x") "cat" = none := by
  have hft := processFile_single_token "doc" "cat" 3 (by decide) (by norm_num)
  constructor
  · rw [hft]
    exact List.mem_singleton.2 rfl
  · rw [FEATURE.relationRows, hft, List.map_cons, List.map_nil, fetchRows_cons,
      if_pos (by decide)]
    rw [show FEATURE.fetchRows ([] : List (String × String × ℤ × ℝ)) ["cat"] = [] from rfl]
    rw [FEATURE.findRow, List.find?_cons_of_neg _ (by decide), List.find?_nil]

/-- C2 (amended): the round trip between ingestion and query holds exactly
under the external naming convention that the ingested token file's stem is
`"title_" + id`: ingestion stores each surviving token's weight under the bare
stem, and when that stem equals `"title_" + id` the ranking engine's lookup for
a query-surviving token finds exactly the stored weight. -/
theorem c2_roundtrip_with_matching_stem (m : List (String × ℤ)) (stem id t : String)
    (f : ℤ) (w : ℝ) (qts : List String)
    (hnd : (m.map (fun p => p.1)).Nodup) (hstem : stem = "title_" ++ id)
    (hmem : (t, f, w) ∈ (FEATURE.processFile stem m).filtered_tokens) (hq : t ∈ qts) :
    FEATURE.findRow (FEATURE.fetchRows (FEATURE.relationRows stem m) qts)
      ("title_" ++ id) t = some ("title_" ++ id, t, w) := by
  subst hstem
  exact findRow_fetch _ qts _ (filtered_tokens_keys_nodup _ m hnd) t f w hmem hq

/-- C2 witness: with the stem `"title_" ++ "x"` and query token set `{"cat"}`,
the weight 1 stored for `("title_x", "cat")` is read back exactly. -/
theorem c2_witness :
    FEATURE.findRow
      (FEATURE.fetchRows (FEATURE.relationRows ("title_" ++ "x") [("cat", 3)]) ["cat"])
      ("title_" ++ "x") "cat" = some ("title_" ++ "x", "cat", (1 : ℝ)) :=
  c2_roundtrip_with_matching_stem [("cat", 3)] ("title_" ++ "x") "x" "cat" 3 1 ["cat"]
    (by decide) rfl
    (by rw [processFile_single_token ("title_" ++ "x") "cat" 3 (by decide) (by norm_num)]
        exact List.mem_singleton.2 rfl)
    (by decide)

theorem insertEntryRows_relation (rdFails : String × String → Bool)
    (st : FEATURE.VectorStore) (entry : DataEntry) :
    (FEATURE.insertEntryRows rdFails st entry).relation_distance =
      entry.filtered_tokens.foldl
        (fun rows tk =>
          if rdFails (entry.path, tk.1) then rows
          else FEATURE.upsertRelation rows (entry.path, tk.1, tk.2.1, tk.2.2))
        st.relation_distance := by
  have key : ∀ (l : List (String × ℤ × ℝ)) (s : FEATURE.VectorStore),
      (l.foldl
        (fun s tk =>
          if rdFails (entry.path, tk.1) then s
          else
            { s with
              relation_distance :=
                FEATURE.upsertRelation s.relation_distance
                  (entry.path, tk.1, tk.2.1, tk.2.2) })
        s).relation_distance =
        l.foldl
          (fun rows tk =>
            if rdFails (entry.path, tk.1) then rows
            else FEATURE.upsertRelation rows (entry.path, tk.1, tk.2.1, tk.2.2))
          s.relation_distance := by
    intro l
    induction l with
    | nil => intro s; rfl
    | cons tk tl ih =>
      intro s
      simp only [List.foldl_cons]
      by_cases hfk : rdFails (entry.path, tk.1) = true
      · rw [if_pos hfk, if_pos hfk]
        exact ih s
      · rw [if_neg hfk, if_neg hfk]
        exact ih _
  exact key entry.filtered_tokens _

/-- C3: ingestion is not all-or-nothing — in the two-file batch where every
insert statement of the document keyed `"b"` fails its step, a store statement
fails during the batch, yet the committed `relation_distance` table still holds
the first document's token row: part of the batch remains committed
instead of the batch rolling back to the pre-batch (empty) state. -/
theorem c3_failed_step_still_commits_rest :
    (∃ file ∈ twoFileBatch, ∃ tk ∈ (FEATURE.processFile file.1 file.2).filtered_tokens,
        failOnDocB (file.1, tk.1) = true) ∧
      (FEATURE.computeRelationalDistanceBatch failOnDocB twoFileBatch
          emptyStore).relation_distance = [("a", "cat", (3 : ℤ), (1 : ℝ))] ∧
      ([("a", "cat", (3 : ℤ), (1 : ℝ))] : List (String × String × ℤ × ℝ)) ≠
        emptyStore.relation_distance := by
  have ha := processFile_single_token "a" "cat" 3 (by decide) (by norm_num)
  have hb := processFile_single_token "b" "dog" 4 (by decide) (by norm_num)
  have hrelA : (FEATURE.insertEntryRows failOnDocB emptyStore
      (FEATURE.processFile "a" [("cat", 3)])).relation_distance =
      [("a", "cat", (3 : ℤ), (1 : ℝ))] := by
    rw [insertEntryRows_relation, ha, processFile_path]
    simp only [List.foldl_cons, List.foldl_nil]
    rw [if_neg (by decide)]
    rfl
  refine ⟨⟨("b", [("dog", 4)]), by decide, ("dog", 4, 1), ?_, by decide⟩, ?_, ?_⟩
  · show ("dog", (4 : ℤ), (1 : ℝ)) ∈ (FEATURE.processFile "b" [("dog", 4)]).filtered_tokens
    rw [hb]
    exact List.mem_singleton.2 rfl
  · rw [FEATURE.computeRelationalDistanceBatch, twoFileBatch]
    simp only [List.foldl_cons, List.foldl_nil]
    rw [insertEntryRows_relation, hb, processFile_path]
    simp only [List.foldl_cons, List.foldl_nil]
    rw [if_pos (by decide)]
    exact hrelA
  · show ([("a", "cat", (3 : ℤ), (1 : ℝ))] : List (String × String × ℤ × ℝ)) ≠ []
    exact List.cons_ne_nil _ _

/-- C9 (counterexample): with two equal-score entries, the output
`[entryB, entryA]` satisfies the code's sort contract (a permutation of the
input, non-increasing in score) yet reverses the original retrieval order
`[entryA, entryB]`, so stable tie order is not guaranteed by the code. -/
theorem c9_counterexample :
    FEATURE.IsSortResult [("a", "fa", (0 : ℝ)), ("b", "fb", 0)]
        [("b", "fb", (0 : ℝ)), ("a", "fa", 0)] ∧
      FEATURE.promptTopN [("b", "fb", (0 : ℝ)), ("a", "fa", 0)] 2 ≠
        [("a", "fa", (0 : ℝ)), ("b", "fb", 0)] := by
  refine ⟨⟨List.Perm.swap _ _ _, ?_⟩, ?_⟩
  · simp [List.pairwise_cons]
  · rw [FEATURE.promptTopN]
    rw [show ([("b", "fb", (0 : ℝ)), ("a", "fa", 0)] : List (String × String × ℝ)).take 2 =
      [("b", "fb", (0 : ℝ)), ("a", "fa", 0)] from rfl]
    intro h
    injection h with hhd _
    injection hhd with h1 _
    exact absurd h1 (by decide)

/-- C9 (amended): any output satisfying the sort contract of `processPrompt`,
truncated by the print loop, is non-increasing in score, has exactly
`min topN corpusSize` entries, and is the whole (sorted) corpus when `topN`
is at least the corpus size; the relative order of equal-score entries is
whatever `std::sort` produced, not necessarily the retrieval order. -/
theorem c9_sorted_truncated_output (input output : List (String × String × ℝ)) (n : ℕ)
    (h : FEATURE.IsSortResult input output) :
    (FEATURE.promptTopN output n).Pairwise (fun a b => b.2.2 ≤ a.2.2) ∧
      (FEATURE.promptTopN output n).length = min n input.length ∧
      (input.length ≤ n → FEATURE.promptTopN output n = output ∧ output.Perm input) := by
  obtain ⟨hperm, hsorted⟩ := h
  refine ⟨hsorted.sublist (List.take_sublist _ _), ?_, ?_⟩
  · rw [FEATURE.promptTopN, List.length_take, hperm.length_eq]
  · intro hle
    have hlen : output.length ≤ n := by
      rw [← hperm.length_eq]
      exact hle
    exact ⟨by rw [FEATURE.promptTopN, List.take_of_length_le hlen], hperm.symm⟩

/-- C9 witness: a singleton corpus sorted onto itself, with `topN = 5`
exceeding the corpus size, returns the whole corpus. -/
theorem c9_witness :
    (FEATURE.promptTopN [("a", "fa", (1 : ℝ))] 5).Pairwise (fun a b => b.2.2 ≤ a.2.2) ∧
      (FEATURE.promptTopN [("a", "fa", (1 : ℝ))] 5).length =
        min 5 [("a", "fa", (1 : ℝ))].length ∧
      ([("a", "fa", (1 : ℝ))].length ≤ 5 →
        FEATURE.promptTopN [("a", "fa", (1 : ℝ))] 5 = [("a", "fa", (1 : ℝ))] ∧
          ([("a", "fa", (1 : ℝ))] : List (String × String × ℝ)).Perm
            [("a", "fa", (1 : ℝ))]) :=
  c9_sorted_truncated_output [("a", "fa", 1)] [("a", "fa", 1)] 5
    ⟨List.Perm.refl _, List.pairwise_singleton _ _⟩
